import Mathlib

/-!
Shallow embedding of the Zero-API route host (src/index.js and the unnamed
part_000 variant): the JSON response-envelope middleware, the recursive
module loader, the per-route dispatch wrapper with its 30-second timeout,
the introspection endpoints (/api/info, /api/stats) and the 404/500
fallback handlers.  Pure functions mirror the source's control flow;
request time and the ambient clock are passed in as explicit parameters.
-/

namespace ZeroAPI

/-- Lowercase one ASCII character, as String.prototype.toLowerCase does on
ASCII input (the only strings lowered by the source are HTTP method names). -/
def asciiLower (c : Char) : Char :=
  if 'A' ≤ c ∧ c ≤ 'Z' then Char.ofNat (c.toNat + 32) else c

/-- JS String.prototype.toLowerCase, restricted to ASCII. -/
def jsToLower (s : String) : String := String.mk (s.data.map asciiLower)

/-- JS String.prototype.split with a one-character separator, on the
underlying character list. -/
def splitOnChar (c : Char) : List Char → List (List Char)
  | [] => [[]]
  | x :: xs =>
    if x = c then [] :: splitOnChar c xs
    else
      match splitOnChar c xs with
      | [] => [[x]]
      | h :: t => (x :: h) :: t

/-- JS `s.split(c)` for a one-character separator. -/
def jsSplit (c : Char) (s : String) : List String :=
  (splitOnChar c s.data).map String.mk

/-- JS String.prototype.startsWith. -/
def jsStartsWith (s pre : String) : Bool := pre.data.isPrefixOf s.data

/-- JS String.prototype.includes for a one-character needle. -/
def jsIncludes (s : String) (c : Char) : Bool := decide (c ∈ s.data)

/-- Occurrences of a character in a character list. -/
def countChar (c : Char) : List Char → Nat
  | [] => 0
  | x :: xs => (if x = c then 1 else 0) + countChar c xs

/-- Node's path.extname: the suffix from the last dot on, unless that dot is
the first character of the name or there is no dot at all. -/
def extname (s : String) : String :=
  let rev := s.data.reverse
  let suff := rev.takeWhile (fun c => c ≠ '.')
  if suff.length + 1 < rev.length then String.mk ('.' :: suff.reverse) else ""

/-- JSON values as produced and consumed by the server.  Numbers are
restricted to integers: no claim involves fractional payloads. -/
inductive Json where
  | null
  | bool (b : Bool)
  | num (n : Int)
  | str (s : String)
  | arr (elems : List Json)
  | obj (fields : List (String × Json))

/-- JS truthiness of a JSON value (objects and arrays are always truthy). -/
def jsTruthy : Json → Bool
  | .null => false
  | .bool b => b
  | .num n => decide (n ≠ 0)
  | .str s => decide (s ≠ "")
  | .arr _ => true
  | .obj _ => true

/-- JS typeof of a JSON value; note typeof null and typeof arrays are both
the string "object". -/
def jsTypeof : Json → String
  | .null => "object"
  | .bool _ => "boolean"
  | .num _ => "number"
  | .str _ => "string"
  | .arr _ => "object"
  | .obj _ => "object"

/-- First-match lookup among an object's fields. -/
def jsGet : List (String × Json) → String → Option Json
  | [], _ => none
  | p :: rest, k => if p.1 = k then some p.2 else jsGet rest k

/-- Writing one key while building an object literal: update the first
occurrence in place, else append at the end (JS insertion-order semantics). -/
def jsObjSet : List (String × Json) → String → Json → List (String × Json)
  | [], k, v => [(k, v)]
  | p :: rest, k, v => if p.1 = k then (k, v) :: rest else p :: jsObjSet rest k v

/-- Spreading `entries` into an object literal that already holds `base`:
entries are assigned in order, so the spread source wins every collision. -/
def jsSpread (base entries : List (String × Json)) : List (String × Json) :=
  entries.foldl (fun acc p => jsObjSet acc p.1 p.2) base

/-- The own enumerable entries of an array, as object spread sees them:
index keys "0", "1", ... paired with the elements. -/
def arrEntries (xs : List Json) : List (String × Json) :=
  xs.enum.map (fun p => (toString p.1, p.2))

/-- Entries contributed by `...data` inside an object literal. -/
def spreadEntries : Json → List (String × Json)
  | .obj fields => fields
  | .arr xs => arrEntries xs
  | _ => []

/-- Property access `data.k`; arrays expose their index properties. -/
def jsProp (j : Json) (k : String) : Option Json :=
  match j with
  | .obj fields => jsGet fields k
  | .arr xs => jsGet (arrEntries xs) k
  | _ => none

/-- JS `a || b` where `a` is an optional property value. -/
def jsOr (v : Option Json) (d : Json) : Json :=
  match v with
  | some x => if jsTruthy x then x else d
  | none => d

/-- JS `a || b` for optional strings; the empty string is falsy. -/
def strOrDefault (v : Option String) (d : String) : String :=
  match v with
  | some s => if s = "" then d else s
  | none => d

/-- Truthiness of an optional string property. -/
def strTruthy (v : Option String) : Bool :=
  match v with
  | some s => decide (s ≠ "")
  | none => false

/-- The `apiSettings` block of settings.json. -/
structure ApiSettings where
  operator : Option String := none
deriving DecidableEq

/-- The slice of settings.json the envelope middleware reads. -/
structure Settings where
  apiSettings : Option ApiSettings := none
  version : Option String := none
deriving DecidableEq

/-- part_000: `(settings.apiSettings && settings.apiSettings.operator) || "Ladybug APIs"`. -/
def operatorOf (s : Settings) : String :=
  strOrDefault (s.apiSettings.bind ApiSettings.operator) "Ladybug APIs"

/-- part_000: `settings.version || '1.0.0'`. -/
def versionOf (s : Settings) : String := strOrDefault s.version "1.0.0"

/-- index.js: `(settings.apiSettings && settings.apiSettings.operator) || "AjiroDesu"`. -/
def lbOperatorOf (s : Settings) : String :=
  strOrDefault (s.apiSettings.bind ApiSettings.operator) "AjiroDesu"

/-- index.js: `settings.version || "Ladybug bot"`. -/
def lbVersionOf (s : Settings) : String := strOrDefault s.version "Ladybug bot"

/-- Guard of the envelope middleware: `data && typeof data === 'object'`. -/
def isEnveloped (data : Json) : Bool :=
  jsTruthy data && decide (jsTypeof data = "object")

/-- Envelope defaults of part_000, in source order (the status default reads
`data.status || 'success'` before the spread overrides it). -/
def envDefaults (s : Settings) (ts : String) (data : Json) : List (String × Json) :=
  [("status", jsOr (jsProp data "status") (.str "success")),
   ("operator", .str (operatorOf s)),
   ("timestamp", .str ts),
   ("version", .str (versionOf s))]

/-- The overridden res.json of part_000: when the body is a truthy value of
typeof object, build `{envelope defaults, ...data}`; otherwise pass the body
through untouched. -/
def resJson (s : Settings) (ts : String) (data : Json) : Json :=
  if isEnveloped data then
    .obj (jsSpread (envDefaults s ts data) (spreadEntries data))
  else data

/-- Envelope defaults of the index.js (Ladybug) flavor, in source order. -/
def lbEnvDefaults (s : Settings) (ts : String) (data : Json) : List (String × Json) :=
  [("status", jsOr (jsProp data "status") (.str "success")),
   ("developer", .str (lbOperatorOf s)),
   ("framework", .str "Ladybug API Framework"),
   ("version", .str (lbVersionOf s)),
   ("timestamp", .str ts),
   ("ladybug", .str "🐞")]

/-- The overridden res.json of index.js. -/
def lbResJson (s : Settings) (ts : String) (data : Json) : Json :=
  if isEnveloped data then
    .obj (jsSpread (lbEnvDefaults s ts data) (spreadEntries data))
  else data

/-- The fallback settings part_000 substitutes when settings.json is absent. -/
def part000DefaultSettings : Settings :=
  { apiSettings := some { operator := some "Ladybug APIs" }, version := none }

/-- Metadata object of a route module; absent fields are `none`. -/
structure Meta where
  path : Option String := none
  name : Option String := none
  method : Option String := none
  description : Option String := none
  category : Option String := none
  author : Option String := none
  version : Option String := none
  tags : Option (List String) := none
  deprecated : Option Bool := none
  rateLimit : Option String := none
deriving DecidableEq

/-- Shape of a required route file: `meta` must be a key-value object
(`none` models a missing or non-object export) and `onStart` records
whether a handler function is exported. -/
structure RouteModule where
  meta : Option Meta := none
  onStart : Bool := false
deriving DecidableEq

/-- The record pushed onto apiModules for a successfully loaded file, with
the source's `||` defaults already applied. -/
structure RegisteredRoute where
  name : String
  description : String
  category : String
  path : String
  author : String
  method : String
  version : String
  tags : List String
  deprecated : Bool
  rateLimit : Option String
deriving DecidableEq

/-- The record pushed onto loadErrors when a file fails to load. -/
structure LoadError where
  file : String
  error : String
  timestamp : String
deriving DecidableEq

/-- Load-phase state: the loaded-route counter, the registry, the error
list, and the (method, path) pairs registered on the express app. -/
structure LoadState where
  totalRoutes : Nat := 0
  apiModules : List RegisteredRoute := []
  loadErrors : List LoadError := []
  routes : List (String × String) := []
deriving DecidableEq

/-- The state before the scan starts. -/
def loadInit : LoadState := {}

/-- The allowed HTTP methods, exactly as the source lists them. -/
def validMethods : List String :=
  ["get", "post", "put", "delete", "patch", "head", "options"]

/-- Validation and route construction for one imported module, following the
source's fail-fast order: meta object, onStart function, path/name
truthiness, then the lowercased method against validMethods.  Returns the
(method, routePath) pair handed to express and the registry entry, or the
thrown error message. -/
def processModule (m : RouteModule) : Except String ((String × String) × RegisteredRoute) :=
  match m.meta with
  | none => .error "Missing or invalid meta object"
  | some meta =>
    if m.onStart = false then .error "Missing or invalid onStart function"
    else if strTruthy meta.path = false || strTruthy meta.name = false then
      .error "Missing required meta.path or meta.name"
    else
      let p := meta.path.getD ""
      let basePath := (jsSplit '?' p).headD ""
      let routePath := "/api" ++ basePath
      let method := jsToLower (strOrDefault meta.method "get")
      if validMethods.contains method = false then
        .error ("Invalid HTTP method: " ++ method)
      else
        .ok ((method, routePath),
          { name := meta.name.getD ""
            description := strOrDefault meta.description "No description provided"
            category := strOrDefault meta.category "Uncategorized"
            path := routePath ++ (if jsIncludes p '?' then "?" ++ (jsSplit '?' p).getD 1 "" else "")
            author := strOrDefault meta.author "Unknown"
            method := strOrDefault meta.method "GET"
            version := strOrDefault meta.version "1.0.0"
            tags := meta.tags.getD []
            deprecated := meta.deprecated.getD false
            rateLimit := meta.rateLimit })

/-- Importing a candidate file either yields a module object or throws. -/
inductive FileImport where
  | ok (m : RouteModule)
  | throws (msg : String)
deriving DecidableEq

/-- Outcome of one .js file: the require result fed through validation. -/
def fileOutcome : FileImport → Except String ((String × String) × RegisteredRoute)
  | .throws msg => .error msg
  | .ok m => processModule m

/-- The try/catch around one file inside loadModules: a failure appends one
LoadError, a success registers the route, appends the registry entry and
bumps the counter. -/
def processFile (ts : String) (st : LoadState) (fp : String) (c : FileImport) : LoadState :=
  match fileOutcome c with
  | .error e => { st with loadErrors := st.loadErrors ++ [⟨fp, e, ts⟩] }
  | .ok pr => { st with
      routes := st.routes ++ [pr.1],
      apiModules := st.apiModules ++ [pr.2],
      totalRoutes := st.totalRoutes + 1 }

/-- A directory tree as readdirSync exposes it, children in listing order. -/
inductive FsEntry where
  | file (name : String) (content : FileImport)
  | dir (name : String) (entries : List FsEntry)

mutual
/-- loadModules on one directory entry: .js files are processed, other
files skipped, subdirectories recursed into with the joined path. -/
def loadEntry (ts dirPath : String) (st : LoadState) : FsEntry → LoadState
  | .file name c =>
      if extname name = ".js" then processFile ts st (dirPath ++ "/" ++ name) c else st
  | .dir name es => loadEntries ts (dirPath ++ "/" ++ name) st es

/-- The readdirSync forEach over sibling entries, threading the state. -/
def loadEntries (ts dirPath : String) (st : LoadState) : List FsEntry → LoadState
  | [] => st
  | e :: rest => loadEntries ts dirPath (loadEntry ts dirPath st e) rest
end

mutual
/-- The .js files one entry contributes to a scan, with joined paths, in
visit order. -/
def walkEntry (dirPath : String) : FsEntry → List (String × FileImport)
  | .file name c =>
      if extname name = ".js" then [(dirPath ++ "/" ++ name, c)] else []
  | .dir name es => walkEntries (dirPath ++ "/" ++ name) es

/-- The .js files a sibling list contributes, in visit order. -/
def walkEntries (dirPath : String) : List FsEntry → List (String × FileImport)
  | [] => []
  | e :: rest => walkEntry dirPath e ++ walkEntries dirPath rest
end

/-- Processing a flat list of visited files in order. -/
def foldFiles (ts : String) (st : LoadState) (files : List (String × FileImport)) : LoadState :=
  files.foldl (fun s fc => processFile ts s fc.1 fc.2) st

/-- The LoadError a visited file produces, if it fails. -/
def errRecordOf (ts : String) (fc : String × FileImport) : Option LoadError :=
  match fileOutcome fc.2 with
  | .error e => some ⟨fc.1, e, ts⟩
  | .ok _ => none

/-- The registry entry a visited file produces, if it loads. -/
def entryOf (fc : String × FileImport) : Option RegisteredRoute :=
  match fileOutcome fc.2 with
  | .ok pr => some pr.2
  | .error _ => none

/-- The express registration a visited file produces, if it loads. -/
def routeOf (fc : String × FileImport) : Option (String × String) :=
  match fileOutcome fc.2 with
  | .ok pr => some pr.1
  | .error _ => none

/-- One step of `[...new Set(xs)]`: insertion-ordered distinct accumulation. -/
def jsSetStep (acc : List String) (x : String) : List String :=
  if x ∈ acc then acc else acc ++ [x]

/-- `[...new Set(xs)]`. -/
def jsSetOf (xs : List String) : List String := xs.foldl jsSetStep []

/-- One category bucket of the /api/info grouping. -/
structure CatGroup where
  name : String
  count : Nat
  items : List RegisteredRoute
deriving DecidableEq

/-- One iteration of the /api/info forEach: ensure the bucket exists, then
push the item and bump its count. -/
def infoStep (acc : List CatGroup) (m : RegisteredRoute) : List CatGroup :=
  let ensured := if acc.any (fun g => g.name == m.category) then acc
                 else acc ++ [{ name := m.category, count := 0, items := [] }]
  ensured.map (fun g =>
    if g.name == m.category then { g with count := g.count + 1, items := g.items ++ [m] }
    else g)

/-- The categories object of /api/info, as an insertion-ordered bucket list
(Object.values order). -/
def infoCategories (st : LoadState) : List CatGroup :=
  st.apiModules.foldl infoStep []

/-- The summary block of /api/info (serverUptime omitted: ambient clock). -/
structure InfoSummary where
  totalEndpoints : Nat
  totalCategories : Nat
  loadErrors : Nat
deriving DecidableEq

/-- /api/info's summary: totalEndpoints counts forEach iterations, which is
the registry length; totalCategories is Object.keys(categories).length. -/
def infoSummary (st : LoadState) : InfoSummary :=
  { totalEndpoints := st.apiModules.length
    totalCategories := (infoCategories st).length
    loadErrors := st.loadErrors.length }

/-- One step of the /api/stats methods reduce:
`acc[m.method] = (acc[m.method] || 0) + 1`. -/
def bumpKey (acc : List (String × Nat)) (k : String) : List (String × Nat) :=
  if acc.any (fun p => p.1 == k) then
    acc.map (fun p => if p.1 == k then (p.1, p.2 + 1) else p)
  else acc ++ [(k, 1)]

/-- The /api/stats payload fields backed by load state (uptime and node
version omitted: ambient process metrics). -/
structure StatsView where
  totalRoutes : Nat
  loadErrors : Nat
  categories : Nat
  methods : List (String × Nat)
deriving DecidableEq

/-- The /api/stats handler: the counter, the error-list length, the Set
cardinality of categories, and the per-method histogram. -/
def apiStats (st : LoadState) : StatsView :=
  { totalRoutes := st.totalRoutes
    loadErrors := st.loadErrors.length
    categories := (jsSetOf (st.apiModules.map (fun m => m.category))).length
    methods := st.apiModules.foldl (fun acc m => bumpKey acc m.method) [] }

/-- The fixed dispatch deadline: 30000 milliseconds. -/
def timeoutMs : Nat := 30000

/-- Observable behavior of one handler invocation, relative to the wrapper's
start time 0: when (if ever) the handler sends its own response, when its
promise settles, whether it settles by rejection, and the rejection error's
message (read only when logging). -/
structure HandlerBehavior where
  respondsAt : Option Nat := none
  respStatus : Nat := 200
  respBody : Json := .null
  completesAt : Nat := 0
  rejects : Bool := false
  errMsg : String := ""

/-- Whether the handler's own response went out strictly before the timer's
fire time. -/
def handlerSentEarly (b : HandlerBehavior) : Bool :=
  match b.respondsAt with
  | some r => decide (r < timeoutMs)
  | none => false

/-- Whether the catch branch sent its 500 strictly before the timer's fire
time: the promise rejected early and the handler had sent nothing. -/
def wrapperSent500Early (b : HandlerBehavior) : Bool :=
  b.rejects && decide (b.completesAt < timeoutMs) && b.respondsAt.isNone

/-- Whether the timer is still armed when its deadline arrives: clearTimeout
runs only on the fulfilled path, after the await. -/
def timerPending (b : HandlerBehavior) : Bool :=
  b.rejects || decide (timeoutMs < b.completesAt)

/-- Whether the timer callback finds headersSent false and emits the 408. -/
def fires408 (b : HandlerBehavior) : Bool :=
  timerPending b && !(handlerSentEarly b || wrapperSent500Early b)

/-- Whether the catch branch finds headersSent false and emits the 500. -/
def fires500 (b : HandlerBehavior) : Bool :=
  b.rejects && !(b.respondsAt.isSome || (fires408 b && decide (timeoutMs ≤ b.completesAt)))

/-- Whether the handler's own send reaches the client (it fails only when
the 408 already committed the response). -/
def handlerDelivered (b : HandlerBehavior) : Bool :=
  match b.respondsAt with
  | some r => !(fires408 b && decide (timeoutMs ≤ r))
  | none => false

/-- A response as the client sees it: send time, HTTP status, JSON body
(the body as handed to res.json, before the envelope merge). -/
structure SentResponse where
  time : Nat
  httpStatus : Nat
  body : Json

/-- What one dispatch produces: the at-most-one client-visible response,
whether clearTimeout was ever called, and the local log lines. -/
structure DispatchResult where
  clientResponse : Option SentResponse
  clearCalled : Bool
  logs : List String

/-- The local error log line of the catch branch. -/
def errLog (name msg : String) : String := "Error in " ++ name ++ ": " ++ msg

/-- The local success log line after the await. -/
def doneLog (d : Nat) : String := "Completed in " ++ toString d ++ "ms"

/-- The timeout body of part_000's dispatch wrapper. -/
def timeoutBody : Json :=
  .obj [("status", .str "error"), ("message", .str "Request timeout"), ("code", .str "TIMEOUT")]

/-- The catch-branch body of part_000's dispatch wrapper. -/
def internalErrorBody : Json :=
  .obj [("status", .str "error"), ("message", .str "Internal server error"),
        ("code", .str "INTERNAL_ERROR")]

/-- The timeout body of index.js's dispatch wrapper. -/
def lbTimeoutBody : Json :=
  .obj [("status", .str "error"),
        ("message", .str "Request timeout - Ladybug took too long to respond"),
        ("code", .str "LADYBUG_TIMEOUT"), ("ladybug", .str "🐞 Timeout!")]

/-- The catch-branch body of index.js's dispatch wrapper. -/
def lbErrorBody : Json :=
  .obj [("status", .str "error"), ("message", .str "Internal Ladybug error"),
        ("code", .str "LADYBUG_ERROR"), ("ladybug", .str "🐞 Oops! Bug detected!")]

/-- The per-route dispatch wrapper, parameterized by the flavor's timeout
and error bodies: arm the 30s timer, await the handler, clear the timer
only on the fulfilled path, convert a rejection into the generic 500 when
nothing was sent, and log the settlement either way. -/
def dispatchWith (tBody eBody : Json) (name : String) (b : HandlerBehavior) : DispatchResult :=
  { clientResponse :=
      if handlerDelivered b then
        some ⟨b.respondsAt.getD 0, b.respStatus, b.respBody⟩
      else if fires408 b then
        some ⟨timeoutMs, 408, tBody⟩
      else if fires500 b then
        some ⟨b.completesAt, 500, eBody⟩
      else none
    clearCalled := !b.rejects
    logs := if b.rejects then [errLog name b.errMsg] else [doneLog b.completesAt] }

/-- part_000's dispatch wrapper. -/
def dispatch : String → HandlerBehavior → DispatchResult :=
  dispatchWith timeoutBody internalErrorBody

/-- index.js's dispatch wrapper. -/
def lbDispatch : String → HandlerBehavior → DispatchResult :=
  dispatchWith lbTimeoutBody lbErrorBody

/-- What a fallback handler sends: a JSON body or a static page file. -/
inductive HttpOut where
  | json (status : Nat) (body : Json)
  | file (status : Nat) (page : String)

/-- Whether a fallback response is the structured JSON one. -/
def isJsonOut : HttpOut → Bool
  | .json _ _ => true
  | .file _ _ => false

/-- The 404 body of part_000's fallback handler. -/
def notFoundBody : Json :=
  .obj [("status", .str "error"), ("message", .str "API endpoint not found"),
        ("code", .str "NOT_FOUND"),
        ("suggestion", .str "Visit /api/info for available endpoints")]

/-- The 404 body of index.js's fallback handler. -/
def lbNotFoundBody : Json :=
  .obj [("status", .str "error"), ("message", .str "Ladybug endpoint not found"),
        ("code", .str "LADYBUG_NOT_FOUND"),
        ("suggestion", .str "Visit /ladybug/docs for available endpoints"),
        ("ladybug", .str "🐞 This endpoint seems to have flown away!")]

/-- The 500 body of index.js's top-level error handler. -/
def lbServerErrorBody : Json :=
  .obj [("status", .str "error"), ("message", .str "Internal Ladybug error"),
        ("code", .str "LADYBUG_INTERNAL_ERROR"),
        ("ladybug", .str "🐞 Oops! A bug in the system!")]

/-- part_000's 404 middleware: JSON under '/api/', static page otherwise. -/
def notFoundHandler (url : String) : HttpOut :=
  if jsStartsWith url "/api/" then .json 404 notFoundBody else .file 404 "404.html"

/-- index.js's 404 middleware: JSON under '/ladybug/', static otherwise. -/
def lbNotFoundHandler (url : String) : HttpOut :=
  if jsStartsWith url "/ladybug/" then .json 404 lbNotFoundBody
  else .file 404 "ladybug-404.html"

/-- part_000's top-level 500 handler (same body constant as the wrapper's
catch branch). -/
def serverErrorHandler (url : String) : HttpOut :=
  if jsStartsWith url "/api/" then .json 500 internalErrorBody else .file 500 "500.html"

/-- index.js's top-level 500 handler. -/
def lbServerErrorHandler (url : String) : HttpOut :=
  if jsStartsWith url "/ladybug/" then .json 500 lbServerErrorBody
  else .file 500 "ladybug-500.html"

/-- Demo handler body for the envelope theorems: a handler that overrides
status and carries one extra field. -/
def demoFields : List (String × Json) := [("status", .str "error"), ("foo", .num 1)]

/-- A module missing meta.name. -/
def noNameModule : RouteModule := { meta := some { path := some "/b" }, onStart := true }

/-- The api/example/hello.js module shipped with the repository. -/
def helloModule : RouteModule :=
  { meta := some { path := some "/example/hello", name := some "Hello API",
                   method := some "GET", description := some "A simple hello API endpoint",
                   category := some "Example", author := some "Mr Ntando Ofc" },
    onStart := true }

/-- A small api tree: one invalid file beside a subfolder with one valid
file. -/
def demoTree : FsEntry :=
  .dir "api"
    [.file "bad.js" (.ok noNameModule),
     .dir "example" [.file "hello.js" (.ok helloModule)]]

/-- A module whose declared path holds two question marks. -/
def doubleQueryModule : RouteModule :=
  { meta := some { path := some "/x?a=1?b=2", name := some "Q", method := some "GET" },
    onStart := true }

/-- A module with an ordinary single-question-mark query. -/
def singleQueryModule : RouteModule :=
  { meta := some { path := some "/y?q=1", name := some "Q1" }, onStart := true }

/-- What loading singleQueryModule produces. -/
def singleQueryResult : (String × String) × RegisteredRoute :=
  (("get", "/api/y"),
   { name := "Q1", description := "No description provided", category := "Uncategorized",
     path := "/api/y?q=1", author := "Unknown", method := "GET", version := "1.0.0",
     tags := [], deprecated := false, rateLimit := none })

/-- A handler that rejects 10 ms in without having responded. -/
def earlyReject : HandlerBehavior := { completesAt := 10, rejects := true, errMsg := "boom" }

/-- A handler that never responds and fulfills only at 40000 ms. -/
def slowHandler : HandlerBehavior := { completesAt := 40000 }

/-- A handler that responds at 5 ms and fulfills at 7 ms. -/
def promptHandler : HandlerBehavior :=
  { respondsAt := some 5, respBody := .obj [("message", .str "Hello, world!")],
    completesAt := 7 }

/-! ## Lookup lemmas for the JS object-literal merge -/

theorem jsGet_objSet_self (l : List (String × Json)) (k : String) (v : Json) :
    jsGet (jsObjSet l k v) k = some v := by
  induction l with
  | nil => simp [jsObjSet, jsGet]
  | cons p rest ih =>
    by_cases h : p.1 = k
    · simp [jsObjSet, h, jsGet]
    · simp [jsObjSet, h, jsGet, ih]

theorem jsGet_objSet_other (l : List (String × Json)) (k k' : String) (v : Json)
    (h : k ≠ k') : jsGet (jsObjSet l k v) k' = jsGet l k' := by
  induction l with
  | nil =>
    simp only [jsObjSet, jsGet]
    rw [if_neg h]
  | cons p rest ih =>
    by_cases hp : p.1 = k
    · have hpk' : ¬p.1 = k' := fun e => h (hp.symm.trans e)
      simp only [jsObjSet, if_pos hp, jsGet]
      rw [if_neg h, if_neg hpk']
    · simp only [jsObjSet, if_neg hp, jsGet]
      by_cases hp' : p.1 = k'
      · rw [if_pos hp', if_pos hp']
      · rw [if_neg hp', if_neg hp', ih]

theorem jsGet_spread_skip (entries : List (String × Json)) :
    ∀ (base : List (String × Json)) (k : String), k ∉ entries.map Prod.fst →
      jsGet (jsSpread base entries) k = jsGet base k := by
  induction entries with
  | nil => intro base k _; rfl
  | cons p rest ih =>
    intro base k h
    simp only [List.map_cons, List.mem_cons, not_or] at h
    have step : jsSpread base (p :: rest) = jsSpread (jsObjSet base p.1 p.2) rest := rfl
    rw [step, ih _ k h.2, jsGet_objSet_other _ _ _ _ (fun e => h.1 e.symm)]

theorem jsGet_spread_within (entries : List (String × Json)) :
    ∀ (base : List (String × Json)) (k : String) (v : Json),
      (entries.map Prod.fst).Nodup → jsGet entries k = some v →
      jsGet (jsSpread base entries) k = some v := by
  induction entries with
  | nil => intro base k v _ h; simp [jsGet] at h
  | cons p rest ih =>
    intro base k v hnd h
    simp only [List.map_cons, List.nodup_cons] at hnd
    have step : jsSpread base (p :: rest) = jsSpread (jsObjSet base p.1 p.2) rest := rfl
    by_cases hp : p.1 = k
    · simp only [jsGet, if_pos hp] at h
      injection h with hv
      rw [step, jsGet_spread_skip rest _ _ (hp ▸ hnd.1), ← hp, jsGet_objSet_self, hv]
    · simp only [jsGet, if_neg hp] at h
      rw [step, ih _ k v hnd.2 h]

theorem jsGet_eq_none (l : List (String × Json)) (k : String) :
    jsGet l k = none ↔ k ∉ l.map Prod.fst := by
  induction l with
  | nil => simp [jsGet]
  | cons p rest ih =>
    by_cases hp : p.1 = k
    · simp [jsGet, hp]
    · simp [jsGet, hp, ih, Ne.symm hp]

/-! ## C1: envelope merge, handler fields win -/

/-- Claim C1: for a handler body that is a proper key-value object, the
client-visible body is the merge of the envelope defaults (status success,
operator/developer, version, timestamp) under the handler's own fields:
every handler field survives unchanged (so a handler status such as
"error" overrides the default), and each envelope default appears exactly
when the handler did not set that key.  Stated for both deployment
flavors (part_000's resJson and index.js's lbResJson). -/
theorem claim_C1 (s : Settings) (ts : String) (fields : List (String × Json))
    (hnd : (fields.map Prod.fst).Nodup) :
    (∀ k v, jsGet fields k = some v → jsProp (resJson s ts (.obj fields)) k = some v)
  ∧ (jsGet fields "status" = none →
      jsProp (resJson s ts (.obj fields)) "status" = some (.str "success"))
  ∧ (jsGet fields "operator" = none →
      jsProp (resJson s ts (.obj fields)) "operator" = some (.str (operatorOf s)))
  ∧ (jsGet fields "timestamp" = none →
      jsProp (resJson s ts (.obj fields)) "timestamp" = some (.str ts))
  ∧ (jsGet fields "version" = none →
      jsProp (resJson s ts (.obj fields)) "version" = some (.str (versionOf s)))
  ∧ (∀ k v, jsGet fields k = some v → jsProp (lbResJson s ts (.obj fields)) k = some v)
  ∧ (jsGet fields "status" = none →
      jsProp (lbResJson s ts (.obj fields)) "status" = some (.str "success"))
  ∧ (jsGet fields "developer" = none →
      jsProp (lbResJson s ts (.obj fields)) "developer" = some (.str (lbOperatorOf s))) := by
  have hres : resJson s ts (.obj fields) =
      .obj (jsSpread (envDefaults s ts (.obj fields)) fields) := by
    simp [resJson, isEnveloped, jsTruthy, jsTypeof, spreadEntries]
  have hlb : lbResJson s ts (.obj fields) =
      .obj (jsSpread (lbEnvDefaults s ts (.obj fields)) fields) := by
    simp [lbResJson, isEnveloped, jsTruthy, jsTypeof, spreadEntries]
  refine ⟨?_, ?_, ?_, ?_, ?_, ?_, ?_, ?_⟩
  · intro k v h
    rw [hres]
    exact jsGet_spread_within fields _ k v hnd h
  · intro h
    rw [hres]
    show jsGet _ "status" = _
    rw [jsGet_spread_skip fields _ _ ((jsGet_eq_none fields "status").mp h)]
    simp [envDefaults, jsGet, jsProp, jsOr, h]
  · intro h
    rw [hres]
    show jsGet _ "operator" = _
    rw [jsGet_spread_skip fields _ _ ((jsGet_eq_none fields "operator").mp h)]
    simp [envDefaults, jsGet]
  · intro h
    rw [hres]
    show jsGet _ "timestamp" = _
    rw [jsGet_spread_skip fields _ _ ((jsGet_eq_none fields "timestamp").mp h)]
    simp [envDefaults, jsGet]
  · intro h
    rw [hres]
    show jsGet _ "version" = _
    rw [jsGet_spread_skip fields _ _ ((jsGet_eq_none fields "version").mp h)]
    simp [envDefaults, jsGet]
  · intro k v h
    rw [hlb]
    exact jsGet_spread_within fields _ k v hnd h
  · intro h
    rw [hlb]
    show jsGet _ "status" = _
    rw [jsGet_spread_skip fields _ _ ((jsGet_eq_none fields "status").mp h)]
    simp [lbEnvDefaults, jsGet, jsProp, jsOr, h]
  · intro h
    rw [hlb]
    show jsGet _ "developer" = _
    rw [jsGet_spread_skip fields _ _ ((jsGet_eq_none fields "developer").mp h)]
    simp [lbEnvDefaults, jsGet]

/-- Witness for C1 at the handler body {status: "error", foo: 1}: the
handler's error status wins over the default, foo reaches the client
unchanged, and the operator default fills in. -/
theorem claim_C1_witness :
    jsProp (resJson part000DefaultSettings "T" (.obj demoFields)) "status" = some (.str "error")
  ∧ jsProp (resJson part000DefaultSettings "T" (.obj demoFields)) "foo" = some (.num 1)
  ∧ jsProp (resJson part000DefaultSettings "T" (.obj demoFields)) "operator" =
      some (.str "Ladybug APIs") := by
  have h := claim_C1 part000DefaultSettings "T" demoFields (by decide)
  exact ⟨h.1 "status" (.str "error") rfl, h.1 "foo" (.num 1) rfl,
    (h.2.2.1 rfl).trans rfl⟩

/-! ## C2: pass-through of non-object bodies -/

/-- Counterexample to C2 as stated: an array body does not pass through
unmodified, because `typeof [1] === 'object'` holds in JS, so the
middleware spreads the array's index entries over the envelope defaults. -/
theorem claim_C2_counterexample :
    resJson part000DefaultSettings "T" (.arr [.num 1]) ≠ .arr [.num 1]
  ∧ resJson part000DefaultSettings "T" (.arr [.num 1]) =
      .obj [("status", .str "success"), ("operator", .str "Ladybug APIs"),
            ("timestamp", .str "T"), ("version", .str "1.0.0"), ("0", .num 1)] := by
  have e : resJson part000DefaultSettings "T" (.arr [.num 1]) =
      .obj [("status", .str "success"), ("operator", .str "Ladybug APIs"),
            ("timestamp", .str "T"), ("version", .str "1.0.0"), ("0", .num 1)] := rfl
  refine ⟨?_, e⟩
  rw [e]
  intro h
  exact Json.noConfusion h

/-- Claim C2 amended: null and the primitives (booleans, numbers, strings)
pass through the envelope middleware unmodified; an array, however,
satisfies `data && typeof data === 'object'` and is therefore enveloped,
its index entries spread over the envelope defaults.  Both flavors. -/
theorem claim_C2 (s : Settings) (ts : String) :
    resJson s ts .null = .null
  ∧ (∀ b, resJson s ts (.bool b) = .bool b)
  ∧ (∀ n, resJson s ts (.num n) = .num n)
  ∧ (∀ x, resJson s ts (.str x) = .str x)
  ∧ (∀ xs, resJson s ts (.arr xs) =
      .obj (jsSpread (envDefaults s ts (.arr xs)) (arrEntries xs)))
  ∧ lbResJson s ts .null = .null
  ∧ (∀ b, lbResJson s ts (.bool b) = .bool b)
  ∧ (∀ n, lbResJson s ts (.num n) = .num n)
  ∧ (∀ x, lbResJson s ts (.str x) = .str x)
  ∧ (∀ xs, lbResJson s ts (.arr xs) =
      .obj (jsSpread (lbEnvDefaults s ts (.arr xs)) (arrEntries xs))) := by
  refine ⟨rfl, ?_, ?_, ?_, ?_, rfl, ?_, ?_, ?_, ?_⟩ <;>
    intro x <;>
    simp [resJson, lbResJson, isEnveloped, jsTruthy, jsTypeof, spreadEntries]

/-! ## C10 and C6: the 404/500 fallback handlers -/

/-- Claim C10: the fallback handlers choose JSON over the static page by
testing whether the URL starts with the prefix followed by a slash, so the
bare prefix ('/api', '/ladybug') and mere string extensions of the prefix
('/apix', '/ladybugs') both get the static fallback page, never the
structured JSON error. -/
theorem claim_C10 (url : String) :
    isJsonOut (notFoundHandler url) = jsStartsWith url "/api/"
  ∧ isJsonOut (serverErrorHandler url) = jsStartsWith url "/api/"
  ∧ isJsonOut (lbNotFoundHandler url) = jsStartsWith url "/ladybug/"
  ∧ isJsonOut (lbServerErrorHandler url) = jsStartsWith url "/ladybug/"
  ∧ notFoundHandler "/api" = .file 404 "404.html"
  ∧ notFoundHandler "/apix" = .file 404 "404.html"
  ∧ serverErrorHandler "/api" = .file 500 "500.html"
  ∧ lbNotFoundHandler "/ladybug" = .file 404 "ladybug-404.html"
  ∧ lbNotFoundHandler "/ladybugs" = .file 404 "ladybug-404.html" := by
  refine ⟨?_, ?_, ?_, ?_, rfl, rfl, rfl, rfl, rfl⟩ <;>
  · by_cases h : jsStartsWith url "/api/" <;>
      by_cases h2 : jsStartsWith url "/ladybug/" <;>
      simp [notFoundHandler, serverErrorHandler, lbNotFoundHandler, lbServerErrorHandler,
        isJsonOut, h, h2]

/-- Claim C6: an unmatched request under the API prefix receives the 404
JSON body whose code is the not-found code and whose suggestion points at
the listing endpoint (and the code field survives the envelope merge);
an unmatched request outside the prefix receives the static fallback
page.  Both flavors. -/
theorem claim_C6 (url : String) :
    (jsStartsWith url "/api/" = true → notFoundHandler url = .json 404 notFoundBody)
  ∧ (jsStartsWith url "/api/" = false → notFoundHandler url = .file 404 "404.html")
  ∧ jsProp notFoundBody "code" = some (.str "NOT_FOUND")
  ∧ jsProp notFoundBody "suggestion" = some (.str "Visit /api/info for available endpoints")
  ∧ (∀ s ts, jsProp (resJson s ts notFoundBody) "code" = some (.str "NOT_FOUND"))
  ∧ (jsStartsWith url "/ladybug/" = true → lbNotFoundHandler url = .json 404 lbNotFoundBody)
  ∧ (jsStartsWith url "/ladybug/" = false →
      lbNotFoundHandler url = .file 404 "ladybug-404.html")
  ∧ jsProp lbNotFoundBody "code" = some (.str "LADYBUG_NOT_FOUND")
  ∧ jsProp lbNotFoundBody "suggestion" =
      some (.str "Visit /ladybug/docs for available endpoints") := by
  refine ⟨fun h => by simp [notFoundHandler, h], fun h => by simp [notFoundHandler, h],
    rfl, rfl, ?_, fun h => by simp [lbNotFoundHandler, h],
    fun h => by simp [lbNotFoundHandler, h], rfl, rfl⟩
  intro s ts
  have hres : resJson s ts notFoundBody =
      .obj (jsSpread (envDefaults s ts notFoundBody) (spreadEntries notFoundBody)) := by
    simp [resJson, isEnveloped, jsTruthy, jsTypeof, notFoundBody]
  rw [hres]
  exact jsGet_spread_within _ _ _ _ (by decide) rfl

/-- Witness for C6 at the claim's own example URL and a non-API URL. -/
theorem claim_C6_witness :
    notFoundHandler "/api/does/not/exist" = .json 404 notFoundBody
  ∧ notFoundHandler "/docs" = .file 404 "404.html" :=
  ⟨(claim_C6 "/api/does/not/exist").1 rfl, (claim_C6 "/docs").2.1 rfl⟩

/-! ## Dispatch wrapper lemmas shared by C4 and C5 -/

theorem dispatchWith_timeout (tB eB : Json) (name : String) (b : HandlerBehavior)
    (h1 : timerPending b = true) (h2 : handlerSentEarly b = false)
    (h3 : wrapperSent500Early b = false) :
    (dispatchWith tB eB name b).clientResponse = some ⟨timeoutMs, 408, tB⟩ := by
  have h408 : fires408 b = true := by simp [fires408, h1, h2, h3]
  have hdel : handlerDelivered b = false := by
    unfold handlerDelivered
    cases hr : b.respondsAt with
    | none => rfl
    | some r =>
      have hr' : decide (r < timeoutMs) = false := by
        have h2' := h2
        unfold handlerSentEarly at h2'
        rw [hr] at h2'
        exact h2'
      have hle : timeoutMs ≤ r := Nat.le_of_not_lt (of_decide_eq_false hr')
      simp [h408, hle]
  simp [dispatchWith, hdel, h408]

theorem dispatchWith_reject_early (tB eB : Json) (name : String) (b : HandlerBehavior)
    (h1 : b.rejects = true) (h2 : b.respondsAt = none) (h3 : b.completesAt < timeoutMs) :
    (dispatchWith tB eB name b).clientResponse = some ⟨b.completesAt, 500, eB⟩ := by
  have h500e : wrapperSent500Early b = true := by
    simp [wrapperSent500Early, h1, h2, h3]
  have h408 : fires408 b = false := by simp [fires408, h500e]
  have hdel : handlerDelivered b = false := by simp [handlerDelivered, h2]
  have h500 : fires500 b = true := by simp [fires500, h1, h2, h408]
  simp [dispatchWith, hdel, h408, h500]

/-! ## C4: the 30-second timeout -/

/-- Counterexample to C4 as stated: a handler that rejects 10 ms in without
having responded.  Its settlement does NOT cancel the timer — clearTimeout
sits after the await inside the try block, so the catch path skips it —
even though the claim says the timer is cancelled regardless of whether
the operation succeeded or rejected.  (The client receives the catch
branch's 500, so the later firing is invisible, but the timer is not
cancelled.) -/
theorem claim_C4_counterexample :
    (dispatch "demo" earlyReject).clearCalled = false
  ∧ (dispatch "demo" earlyReject).clientResponse = some ⟨10, 500, internalErrorBody⟩ :=
  ⟨rfl, rfl⟩

/-- Claim C4 amended:  the wrapper arms a 30000 ms timer; if no response at
all (neither the handler's own nor the catch branch's 500) has been sent
when the timer fires, the client receives the 408 response whose code is
the flavor's timeout code; the handler's operation is never aborted — its
settlement is still processed and logged; and the timer is cancelled only
when the operation fulfills: on rejection clearTimeout is never called,
but the still-armed timer's firing emits nothing because a response was
already sent (an early rejection yields the 500, not a later 408). -/
theorem claim_C4 (name : String) (b : HandlerBehavior) :
    timeoutMs = 30000
  ∧ (dispatch name b).clearCalled = !b.rejects
  ∧ (timerPending b = true → handlerSentEarly b = false → wrapperSent500Early b = false →
      (dispatch name b).clientResponse = some ⟨timeoutMs, 408, timeoutBody⟩)
  ∧ jsProp timeoutBody "code" = some (.str "TIMEOUT")
  ∧ jsProp lbTimeoutBody "code" = some (.str "LADYBUG_TIMEOUT")
  ∧ (b.rejects = true → b.respondsAt = none → b.completesAt < timeoutMs →
      (dispatch name b).clientResponse = some ⟨b.completesAt, 500, internalErrorBody⟩)
  ∧ (dispatch name b).logs = [if b.rejects then errLog name b.errMsg else doneLog b.completesAt] := by
  refine ⟨rfl, rfl, ?_, rfl, rfl, ?_, ?_⟩
  · exact dispatchWith_timeout timeoutBody internalErrorBody name b
  · exact dispatchWith_reject_early timeoutBody internalErrorBody name b
  · cases hb : b.rejects <;> simp [dispatch, dispatchWith, hb]

/-- Witness for C4: the slow fulfilling handler gets the 408; the early
rejection gets the 500 and no clearTimeout; the prompt handler does get
clearTimeout. -/
theorem claim_C4_witness :
    (dispatch "w" slowHandler).clientResponse = some ⟨timeoutMs, 408, timeoutBody⟩
  ∧ (dispatch "w" earlyReject).clientResponse = some ⟨10, 500, internalErrorBody⟩
  ∧ (dispatch "w" earlyReject).clearCalled = false
  ∧ (dispatch "w" promptHandler).clearCalled = true := by
  refine ⟨(claim_C4 "w" slowHandler).2.2.1 rfl rfl rfl,
    (claim_C4 "w" earlyReject).2.2.2.2.2.1 rfl rfl (by decide), ?_, ?_⟩
  · exact (claim_C4 "w" earlyReject).2.1
  · exact (claim_C4 "w" promptHandler).2.1

/-! ## C5: rejection produces a constant 500, the message goes to logs only -/

/-- Claim C5: for any two exceptions a handler may reject with (behaviors
differing only in the error message), the client-visible response is
identical in both runs — the wrapper's 500 body is the fixed
status/message/code constant with no fragment of the exception in it —
while the message is written to the local log.  Both flavors. -/
theorem claim_C5 (name : String) (b : HandlerBehavior) (m₁ m₂ : String) :
    (dispatch name { b with errMsg := m₁ }).clientResponse
      = (dispatch name { b with errMsg := m₂ }).clientResponse
  ∧ (lbDispatch name { b with errMsg := m₁ }).clientResponse
      = (lbDispatch name { b with errMsg := m₂ }).clientResponse
  ∧ (b.rejects = true → b.respondsAt = none → b.completesAt < timeoutMs →
      (dispatch name b).clientResponse = some ⟨b.completesAt, 500, internalErrorBody⟩)
  ∧ jsProp internalErrorBody "status" = some (.str "error")
  ∧ jsProp internalErrorBody "message" = some (.str "Internal server error")
  ∧ jsProp internalErrorBody "code" = some (.str "INTERNAL_ERROR")
  ∧ jsProp lbErrorBody "code" = some (.str "LADYBUG_ERROR")
  ∧ (b.rejects = true → (dispatch name b).logs = [errLog name b.errMsg]) := by
  refine ⟨rfl, rfl, ?_, rfl, rfl, rfl, rfl, ?_⟩
  · exact dispatchWith_reject_early timeoutBody internalErrorBody name b
  · intro h
    simp [dispatch, dispatchWith, h]

/-- Witness for C5: two different exception messages in the early-reject
scenario produce the same client response, and the message lands in logs. -/
theorem claim_C5_witness :
    (dispatch "w2" { earlyReject with errMsg := "secret A" }).clientResponse
      = (dispatch "w2" { earlyReject with errMsg := "secret B" }).clientResponse
  ∧ (dispatch "w2" earlyReject).clientResponse = some ⟨10, 500, internalErrorBody⟩
  ∧ (dispatch "w2" earlyReject).logs = [errLog "w2" "boom"] := by
  have h := claim_C5 "w2" earlyReject "secret A" "secret B"
  exact ⟨h.1, h.2.2.1 rfl rfl (by decide), h.2.2.2.2.2.2.2 rfl⟩

/-! ## Loader: the scan processes every visited file independently -/

theorem foldFiles_loadErrors (ts : String) (files : List (String × FileImport)) :
    ∀ st, (foldFiles ts st files).loadErrors
      = st.loadErrors ++ files.filterMap (errRecordOf ts) := by
  induction files with
  | nil => intro st; simp [foldFiles]
  | cons fc rest ih =>
    intro st
    have step : foldFiles ts st (fc :: rest)
        = foldFiles ts (processFile ts st fc.1 fc.2) rest := rfl
    rw [step, ih]
    cases hfo : fileOutcome fc.2 with
    | error e => simp [processFile, hfo, errRecordOf, List.append_assoc]
    | ok pr => simp [processFile, hfo, errRecordOf]

theorem foldFiles_apiModules (ts : String) (files : List (String × FileImport)) :
    ∀ st, (foldFiles ts st files).apiModules
      = st.apiModules ++ files.filterMap entryOf := by
  induction files with
  | nil => intro st; simp [foldFiles]
  | cons fc rest ih =>
    intro st
    have step : foldFiles ts st (fc :: rest)
        = foldFiles ts (processFile ts st fc.1 fc.2) rest := rfl
    rw [step, ih]
    cases hfo : fileOutcome fc.2 with
    | error e => simp [processFile, hfo, entryOf]
    | ok pr => simp [processFile, hfo, entryOf, List.append_assoc]

theorem foldFiles_routes (ts : String) (files : List (String × FileImport)) :
    ∀ st, (foldFiles ts st files).routes
      = st.routes ++ files.filterMap routeOf := by
  induction files with
  | nil => intro st; simp [foldFiles]
  | cons fc rest ih =>
    intro st
    have step : foldFiles ts st (fc :: rest)
        = foldFiles ts (processFile ts st fc.1 fc.2) rest := rfl
    rw [step, ih]
    cases hfo : fileOutcome fc.2 with
    | error e => simp [processFile, hfo, routeOf]
    | ok pr => simp [processFile, hfo, routeOf, List.append_assoc]

theorem foldFiles_totalRoutes (ts : String) (files : List (String × FileImport)) :
    ∀ st, (foldFiles ts st files).totalRoutes
      = st.totalRoutes + (files.filterMap entryOf).length := by
  induction files with
  | nil => intro st; simp [foldFiles]
  | cons fc rest ih =>
    intro st
    have step : foldFiles ts st (fc :: rest)
        = foldFiles ts (processFile ts st fc.1 fc.2) rest := rfl
    rw [step, ih]
    cases hfo : fileOutcome fc.2 with
    | error e => simp [processFile, hfo, entryOf]
    | ok pr => simp [processFile, hfo, entryOf]; omega

mutual
theorem loadEntry_eq (ts : String) : ∀ (d : String) (st : LoadState) (e : FsEntry),
    loadEntry ts d st e = foldFiles ts st (walkEntry d e)
  | d, st, .file n c => by
    simp only [loadEntry, walkEntry]
    by_cases h : extname n = ".js" <;> simp [h, foldFiles]
  | d, st, .dir n es => by
    simp only [loadEntry, walkEntry]
    exact loadEntries_eq ts (d ++ "/" ++ n) st es

theorem loadEntries_eq (ts : String) : ∀ (d : String) (st : LoadState) (es : List FsEntry),
    loadEntries ts d st es = foldFiles ts st (walkEntries d es)
  | _, _, [] => rfl
  | d, st, e :: rest => by
    simp only [loadEntries, walkEntries]
    rw [loadEntry_eq ts d st e, loadEntries_eq ts d _ rest]
    simp [foldFiles, List.foldl_append]
end

/-! ## C3: a bad module yields one LoadError and no route, others load -/

/-- Claim C3: a module with a missing (or empty) name or path, or a method
outside the case-insensitively recognized set, fails validation; and over
any scanned tree, the error list is exactly one LoadError — file path,
error message, scan timestamp — per failing file in visit order, while the
registry and route table carry exactly the entries of the files that
validated, so no failure aborts or skips the rest of the walk. -/
theorem claim_C3 :
    (∀ (m : RouteModule) (meta : Meta), m.meta = some meta → m.onStart = true →
      (strTruthy meta.name = false ∨ strTruthy meta.path = false ∨
        validMethods.contains (jsToLower (strOrDefault meta.method "get")) = false) →
      ∃ e, processModule m = Except.error e)
  ∧ (∀ (ts root : String) (t : FsEntry),
      (loadEntry ts root loadInit t).loadErrors
        = (walkEntry root t).filterMap (errRecordOf ts)
    ∧ (loadEntry ts root loadInit t).apiModules
        = (walkEntry root t).filterMap entryOf
    ∧ (loadEntry ts root loadInit t).routes
        = (walkEntry root t).filterMap routeOf) := by
  constructor
  · rintro ⟨mm, mo⟩ meta hm ho hbad
    have hm' : mm = some meta := hm
    have ho' : mo = true := ho
    subst hm'
    subst ho'
    by_cases hpn : strTruthy meta.path = false ∨ strTruthy meta.name = false
    · refine ⟨"Missing required meta.path or meta.name", ?_⟩
      simp only [processModule]
      rcases hpn with hp | hn
      · simp [hp]
      · simp [hn]
    · push_neg at hpn
      have hp : strTruthy meta.path = true := by
        cases h : strTruthy meta.path
        · exact absurd h hpn.1
        · rfl
      have hn : strTruthy meta.name = true := by
        cases h : strTruthy meta.name
        · exact absurd h hpn.2
        · rfl
      have hmeth : validMethods.contains (jsToLower (strOrDefault meta.method "get")) = false := by
        rcases hbad with hb | hb | hb
        · exact absurd hb (by simp [hn])
        · exact absurd hb (by simp [hp])
        · exact hb
      refine ⟨"Invalid HTTP method: " ++ jsToLower (strOrDefault meta.method "get"), ?_⟩
      simp [processModule, hp, hn, hmeth]
      intro hmem
      have hc : validMethods.contains (jsToLower (strOrDefault meta.method "get")) = true :=
        List.elem_iff.mpr hmem
      rw [hc] at hmeth
      exact Bool.noConfusion hmeth
  · intro ts root t
    refine ⟨?_, ?_, ?_⟩
    · rw [loadEntry_eq, foldFiles_loadErrors]
      simp [loadInit]
    · rw [loadEntry_eq, foldFiles_apiModules]
      simp [loadInit]
    · rw [loadEntry_eq, foldFiles_routes]
      simp [loadInit]

/-- Witness for C3 on the demo tree: the name-less module fails validation,
the scan records exactly its one LoadError, and the valid module in the
sibling subfolder still loads. -/
theorem claim_C3_witness :
    (∃ e, processModule noNameModule = Except.error e)
  ∧ (loadEntry "T" "/srv" loadInit demoTree).loadErrors
      = [⟨"/srv/api/bad.js", "Missing required meta.path or meta.name", "T"⟩]
  ∧ (loadEntry "T" "/srv" loadInit demoTree).apiModules.length = 1 := by
  refine ⟨claim_C3.1 noNameModule { path := some "/b" } rfl rfl (Or.inl rfl), ?_, ?_⟩
  · rw [(claim_C3.2 "T" "/srv" demoTree).1]
    rfl
  · rw [(claim_C3.2 "T" "/srv" demoTree).2.1]
    rfl

/-! ## C9: the counter tracks the registry, one record per file -/

/-- Claim C9: each processed file either appends exactly one LoadError and
leaves the registry, route table and counter unchanged, or registers its
route, appends exactly one registry entry and increments the counter by
one; consequently the loaded-route counter minus the registry length is
invariant across any scan, so counter and registry length stay equal from
the empty initial state.  (The introspection endpoints are modeled as pure
functions of LoadState — apiStats, infoCategories, infoSummary — so they
cannot mutate the counter, registry or error list.) -/
theorem claim_C9 :
    (∀ (ts : String) (st : LoadState) (fp : String) (c : FileImport) (e : String),
      fileOutcome c = Except.error e →
      processFile ts st fp c = { st with loadErrors := st.loadErrors ++ [⟨fp, e, ts⟩] })
  ∧ (∀ (ts : String) (st : LoadState) (fp : String) (c : FileImport)
      (pr : (String × String) × RegisteredRoute),
      fileOutcome c = Except.ok pr →
      processFile ts st fp c = { st with
        routes := st.routes ++ [pr.1],
        apiModules := st.apiModules ++ [pr.2],
        totalRoutes := st.totalRoutes + 1 })
  ∧ (∀ (ts root : String) (t : FsEntry) (st : LoadState),
      (loadEntry ts root st t).totalRoutes + st.apiModules.length
        = (loadEntry ts root st t).apiModules.length + st.totalRoutes) := by
  refine ⟨?_, ?_, ?_⟩
  · intro ts st fp c e h
    simp [processFile, h]
  · intro ts st fp c pr h
    simp [processFile, h]
  · intro ts root t st
    rw [loadEntry_eq, foldFiles_totalRoutes, foldFiles_apiModules, List.length_append]
    omega

/-- Witness for C9: a throwing import appends exactly its LoadError, the
valid hello module appends exactly its entry and bumps the counter, and on
the demo tree the counter equals the registry length. -/
theorem claim_C9_witness :
    processFile "T" loadInit "/srv/api/x.js" (.throws "ouch")
      = { loadInit with loadErrors := loadInit.loadErrors ++ [⟨"/srv/api/x.js", "ouch", "T"⟩] }
  ∧ (∃ pr : (String × String) × RegisteredRoute,
      processFile "T" loadInit "/srv/api/hello.js" (.ok helloModule)
      = { loadInit with
            routes := loadInit.routes ++ [pr.1],
            apiModules := loadInit.apiModules ++ [pr.2],
            totalRoutes := loadInit.totalRoutes + 1 })
  ∧ (loadEntry "T" "/srv" loadInit demoTree).totalRoutes + loadInit.apiModules.length
      = (loadEntry "T" "/srv" loadInit demoTree).apiModules.length + loadInit.totalRoutes := by
  refine ⟨claim_C9.1 "T" loadInit "/srv/api/x.js" (.throws "ouch") "ouch" rfl,
    ⟨_, claim_C9.2.1 "T" loadInit "/srv/api/hello.js" (.ok helloModule) _ rfl⟩,
    claim_C9.2.2 "T" "/srv" demoTree loadInit⟩

/-! ## Split lemmas for the query-string handling of C7 -/

theorem splitOnChar_ne_nil (c : Char) (l : List Char) : splitOnChar c l ≠ [] := by
  induction l with
  | nil => simp [splitOnChar]
  | cons x xs ih =>
    by_cases h : x = c
    · simp [splitOnChar, h]
    · simp only [splitOnChar, if_neg h]
      cases hs : splitOnChar c xs <;> simp

theorem countChar_eq_zero (c : Char) (l : List Char) : countChar c l = 0 ↔ c ∉ l := by
  induction l with
  | nil => simp [countChar]
  | cons x xs ih =>
    by_cases h : x = c
    · simp [countChar, h]
    · simp [countChar, h, ih, Ne.symm h]

theorem splitOnChar_length (c : Char) (l : List Char) :
    (splitOnChar c l).length = countChar c l + 1 := by
  induction l with
  | nil => rfl
  | cons x xs ih =>
    by_cases h : x = c
    · simp only [splitOnChar, if_pos h, countChar, if_pos h, List.length_cons]
      omega
    · simp only [splitOnChar, if_neg h, countChar, if_neg h]
      cases hs : splitOnChar c xs with
      | nil => exact absurd hs (splitOnChar_ne_nil c xs)
      | cons a t =>
        rw [hs] at ih
        simp only [List.length_cons] at ih ⊢
        omega

theorem splitOnChar_one (c : Char) (l a : List Char) (h : splitOnChar c l = [a]) :
    l = a := by
  induction l generalizing a with
  | nil =>
    simp only [splitOnChar] at h
    injection h
  | cons x xs ih =>
    by_cases hx : x = c
    · simp only [splitOnChar, if_pos hx] at h
      injection h with _ h2
      exact absurd h2 (splitOnChar_ne_nil c xs)
    · simp only [splitOnChar, if_neg hx] at h
      cases hs : splitOnChar c xs with
      | nil => exact absurd hs (splitOnChar_ne_nil c xs)
      | cons b t =>
        rw [hs] at h
        injection h with h1 h2
        subst h2
        rw [← h1, ih b hs]

theorem splitOnChar_two (c : Char) (l a b : List Char)
    (h : splitOnChar c l = [a, b]) : l = a ++ c :: b := by
  induction l generalizing a with
  | nil =>
    simp only [splitOnChar] at h
    injection h with _ h2
    exact absurd h2.symm (List.cons_ne_nil b [])
  | cons x xs ih =>
    by_cases hx : x = c
    · simp only [splitOnChar, if_pos hx] at h
      injection h with h1 h2
      rw [← h1, hx, splitOnChar_one c xs b h2]
      rfl
    · simp only [splitOnChar, if_neg hx] at h
      cases hs : splitOnChar c xs with
      | nil => exact absurd hs (splitOnChar_ne_nil c xs)
      | cons d t =>
        rw [hs] at h
        injection h with h1 h2
        subst h2
        have hxs : xs = d ++ c :: b := ih d hs
        rw [← h1, hxs]
        rfl

theorem strData_append (s t : String) : (s ++ t).data = s.data ++ t.data := rfl

theorem mk_data (l : List Char) : (String.mk l).data = l := rfl

theorem strEq_of_data {s t : String} (h : s.data = t.data) : s = t := by
  cases s
  cases t
  exact congrArg String.mk h

/-! ## C7: the registered path and the stored display path -/

/-- Counterexample to C7 as stated: a module path with two question marks.
The registry reattaches `split('?')[1]` only — the text between the first
and second question mark — so the stored display path "/api/x?a=1" is not
the API prefix plus the module's original path "/x?a=1?b=2" (whose query
string is "a=1?b=2"). -/
theorem claim_C7_counterexample :
    (processModule doubleQueryModule).map (fun pr => pr.2.path)
      = Except.ok "/api/x?a=1"
  ∧ ("/api/x?a=1" : String) ≠ "/api" ++ "/x?a=1?b=2" :=
  ⟨rfl, by decide⟩

/-- Claim C7 amended: every valid module's live handler is registered at
the fixed prefix '/api' plus the declared path truncated at its first
question mark, exactly as claimed; the registry entry, however, stores the
display path with only `split('?')[1]` — the text between the first and
second question mark — reattached.  When the declared path contains at
most one question mark (split length at most 2), that segment is the whole
original query string, and the stored display path equals the prefix plus
the original declared path. -/
theorem claim_C7 (m : RouteModule) (meta : Meta) (pr : (String × String) × RegisteredRoute)
    (hm : m.meta = some meta) (h : processModule m = Except.ok pr) :
    pr.1 = (jsToLower (strOrDefault meta.method "get"),
            "/api" ++ (jsSplit '?' (meta.path.getD "")).headD "")
  ∧ pr.2.path = "/api" ++ (jsSplit '?' (meta.path.getD "")).headD ""
      ++ (if jsIncludes (meta.path.getD "") '?'
          then "?" ++ (jsSplit '?' (meta.path.getD "")).getD 1 "" else "")
  ∧ ((jsSplit '?' (meta.path.getD "")).length ≤ 2 →
      pr.2.path = "/api" ++ meta.path.getD "") := by
  obtain ⟨mm, mo⟩ := m
  have hm' : mm = some meta := hm
  subst hm'
  simp only [processModule] at h
  by_cases h1 : mo = false
  · rw [if_pos h1] at h
    exact absurd h (by simp)
  rw [if_neg h1] at h
  by_cases h2 : (strTruthy meta.path = false || strTruthy meta.name = false) = true
  · rw [if_pos h2] at h
    exact absurd h (by simp)
  rw [if_neg h2] at h
  by_cases h3 : validMethods.contains (jsToLower (strOrDefault meta.method "get")) = false
  · rw [if_pos h3] at h
    exact absurd h (by simp)
  rw [if_neg h3] at h
  injection h with hpr
  subst hpr
  refine ⟨rfl, rfl, ?_⟩
  intro hlen
  cases hs : splitOnChar '?' (meta.path.getD "").data with
  | nil => exact absurd hs (splitOnChar_ne_nil _ _)
  | cons d t =>
    cases t with
    | nil =>
      have hd : (meta.path.getD "").data = d := splitOnChar_one _ _ _ hs
      have hjs : jsSplit '?' (meta.path.getD "") = [String.mk d] := by
        rw [jsSplit, hs]
        rfl
      have hcount : countChar '?' (meta.path.getD "").data = 0 := by
        have hl := splitOnChar_length '?' (meta.path.getD "").data
        rw [hs] at hl
        simpa using hl.symm
      have hni : jsIncludes (meta.path.getD "") '?' = false := by
        simp [jsIncludes, (countChar_eq_zero _ _).mp hcount]
      rw [hjs, hni]
      apply strEq_of_data
      simp only [List.headD, Bool.false_eq_true, if_false, strData_append, mk_data, hd,
        List.append_nil]
    | cons e t2 =>
      cases t2 with
      | nil =>
        have hd : (meta.path.getD "").data = d ++ '?' :: e := splitOnChar_two _ _ _ _ hs
        have hjs : jsSplit '?' (meta.path.getD "") = [String.mk d, String.mk e] := by
          rw [jsSplit, hs]
          rfl
        have hmem : '?' ∈ (meta.path.getD "").data := by
          rw [hd]
          simp
        have hin : jsIncludes (meta.path.getD "") '?' = true := by
          simp [jsIncludes, hmem]
        rw [hjs, hin]
        apply strEq_of_data
        simp only [List.headD, if_true, strData_append, mk_data, hd, List.getD]
        simp [strData_append, mk_data, List.append_assoc]
      | cons f t3 =>
        exfalso
        have hl : (jsSplit '?' (meta.path.getD "")).length
            = (splitOnChar '?' (meta.path.getD "").data).length := by
          simp [jsSplit]
        rw [hs] at hl
        simp at hl
        omega

/-- Witness for C7 at a module with the ordinary single query "/y?q=1":
the handler is registered at "/api/y" with the defaulted lowercased
method, and the stored display path is the prefix plus the whole original
declared path. -/
theorem claim_C7_witness :
    (processModule singleQueryModule).map (fun pr => pr.1) = Except.ok ("get", "/api/y")
  ∧ (processModule singleQueryModule).map (fun pr => pr.2.path)
      = Except.ok ("/api" ++ "/y?q=1") := by
  have hpm : processModule singleQueryModule = Except.ok singleQueryResult := rfl
  have h := claim_C7 singleQueryModule { path := some "/y?q=1", name := some "Q1" }
    singleQueryResult rfl hpm
  constructor
  · rw [hpm]
    simp only [Except.map]
    rfl
  · rw [hpm]
    simp only [Except.map]
    rw [show singleQueryResult.2.path = "/api" ++ "/y?q=1" from h.2.2 (by decide)]

/-! ## Distinct-count lemmas for the introspection endpoints -/

theorem jsSetAux_spec (xs : List String) :
    ∀ acc : List String, acc.Nodup →
      (xs.foldl jsSetStep acc).Nodup
    ∧ (xs.foldl jsSetStep acc).toFinset = acc.toFinset ∪ xs.toFinset := by
  induction xs with
  | nil =>
    intro acc h
    exact ⟨h, by simp⟩
  | cons x rest ih =>
    intro acc h
    have step : (x :: rest).foldl jsSetStep acc = rest.foldl jsSetStep (jsSetStep acc x) := rfl
    by_cases hx : x ∈ acc
    · have hstep : jsSetStep acc x = acc := by simp [jsSetStep, hx]
      obtain ⟨h1, h2⟩ := ih acc h
      rw [step, hstep]
      refine ⟨h1, ?_⟩
      rw [h2]
      ext a
      simp only [Finset.mem_union, List.mem_toFinset, List.toFinset_cons, Finset.mem_insert]
      constructor
      · rintro (ha | ha)
        · exact Or.inl ha
        · exact Or.inr (Or.inr ha)
      · rintro (ha | ha | ha)
        · exact Or.inl ha
        · exact Or.inl (ha ▸ hx)
        · exact Or.inr ha
    · have hstep : jsSetStep acc x = acc ++ [x] := by simp [jsSetStep, hx]
      have hnd : (acc ++ [x]).Nodup := by
        simp [List.nodup_append, h, hx]
      obtain ⟨h1, h2⟩ := ih (acc ++ [x]) hnd
      rw [step, hstep]
      refine ⟨h1, ?_⟩
      rw [h2]
      ext a
      simp only [Finset.mem_union, List.mem_toFinset, List.mem_append, List.mem_cons,
        List.mem_singleton, List.toFinset_cons, Finset.mem_insert]
      tauto

theorem jsSetOf_length (xs : List String) : (jsSetOf xs).length = xs.toFinset.card := by
  obtain ⟨h1, h2⟩ := jsSetAux_spec xs [] List.nodup_nil
  have hcard := List.toFinset_card_of_nodup h1
  rw [jsSetOf, hcard.symm, h2]
  simp

/-- Renaming helper: mapping a name-preserving update over buckets keeps
the name list. -/
theorem map_name_of_preserve (l : List CatGroup) (f : CatGroup → CatGroup)
    (hf : ∀ g, (f g).name = g.name) :
    (l.map f).map CatGroup.name = l.map CatGroup.name := by
  induction l with
  | nil => rfl
  | cons g rest ih => simp [hf, ih]

theorem infoStep_names (acc : List CatGroup) (m : RegisteredRoute) :
    (infoStep acc m).map CatGroup.name = jsSetStep (acc.map CatGroup.name) m.category := by
  have hf : ∀ g : CatGroup,
      ((fun g => if g.name == m.category
        then { g with count := g.count + 1, items := g.items ++ [m] } else g) g).name
      = g.name := by
    intro g
    by_cases hg : g.name == m.category <;> simp [hg]
  by_cases hmem : m.category ∈ acc.map CatGroup.name
  · have hany : acc.any (fun g => g.name == m.category) = true := by
      simp only [List.mem_map] at hmem
      obtain ⟨g, hg, he⟩ := hmem
      exact List.any_eq_true.mpr ⟨g, hg, by simp [he]⟩
    simp only [infoStep, hany, if_true, jsSetStep, if_pos hmem]
    exact map_name_of_preserve acc _ hf
  · have hany : acc.any (fun g => g.name == m.category) = false := by
      rw [List.any_eq_false]
      intro g hg he
      exact hmem (List.mem_map.mpr ⟨g, hg, by simpa using he⟩)
    simp only [infoStep, hany, Bool.false_eq_true, if_false, jsSetStep, if_neg hmem]
    rw [map_name_of_preserve _ _ hf, List.map_append]
    rfl

theorem foldl_infoStep_names :
    ∀ (mods : List RegisteredRoute) (acc : List CatGroup),
      (mods.foldl infoStep acc).map CatGroup.name
        = (mods.map (fun m => m.category)).foldl jsSetStep (acc.map CatGroup.name) := by
  intro mods
  induction mods with
  | nil => intro acc; rfl
  | cons m rest ih =>
    intro acc
    have step : (m :: rest).foldl infoStep acc = rest.foldl infoStep (infoStep acc m) := rfl
    rw [step, ih, infoStep_names]
    rfl

theorem infoCategories_length (st : LoadState) :
    (infoCategories st).length
      = (st.apiModules.map (fun m => m.category)).toFinset.card := by
  have h := foldl_infoStep_names st.apiModules []
  have hlen : (infoCategories st).length
      = ((infoCategories st).map CatGroup.name).length := by simp
  rw [hlen, infoCategories, h]
  exact jsSetOf_length _

/-! ## C8: the stats and docs counters -/

/-- Claim C8: after any scan from the empty state, /api/stats reports
totalRoutes equal to the number N of modules that validated, loadErrors
equal to the number E of files that failed, and categories equal to the
number M of distinct categories among the registered modules; /api/info's
summary reports the same M as totalCategories, the same E as loadErrors,
and N as totalEndpoints. -/
theorem claim_C8 (ts root : String) (t : FsEntry) :
    (apiStats (loadEntry ts root loadInit t)).totalRoutes
      = ((walkEntry root t).filterMap entryOf).length
  ∧ (apiStats (loadEntry ts root loadInit t)).loadErrors
      = ((walkEntry root t).filterMap (errRecordOf ts)).length
  ∧ (apiStats (loadEntry ts root loadInit t)).categories
      = (((walkEntry root t).filterMap entryOf).map (fun r => r.category)).toFinset.card
  ∧ (infoSummary (loadEntry ts root loadInit t)).totalCategories
      = (((walkEntry root t).filterMap entryOf).map (fun r => r.category)).toFinset.card
  ∧ (infoSummary (loadEntry ts root loadInit t)).loadErrors
      = ((walkEntry root t).filterMap (errRecordOf ts)).length
  ∧ (infoSummary (loadEntry ts root loadInit t)).totalEndpoints
      = ((walkEntry root t).filterMap entryOf).length := by
  have hmod : (loadEntry ts root loadInit t).apiModules
      = (walkEntry root t).filterMap entryOf := by
    rw [loadEntry_eq, foldFiles_apiModules]
    simp [loadInit]
  have herr : (loadEntry ts root loadInit t).loadErrors
      = (walkEntry root t).filterMap (errRecordOf ts) := by
    rw [loadEntry_eq, foldFiles_loadErrors]
    simp [loadInit]
  have htot : (loadEntry ts root loadInit t).totalRoutes
      = ((walkEntry root t).filterMap entryOf).length := by
    rw [loadEntry_eq, foldFiles_totalRoutes]
    simp [loadInit]
  refine ⟨?_, ?_, ?_, ?_, ?_, ?_⟩
  · simpa [apiStats] using htot
  · simpa [apiStats] using congrArg List.length herr
  · show (jsSetOf ((loadEntry ts root loadInit t).apiModules.map (fun m => m.category))).length = _
    rw [jsSetOf_length, hmod]
  · show (infoCategories (loadEntry ts root loadInit t)).length = _
    rw [infoCategories_length, hmod]
  · simpa [infoSummary] using congrArg List.length herr
  · simpa [infoSummary] using congrArg List.length hmod

end ZeroAPI
